import Mathlib

/-!
# Verification of the expense-tracker ledger, summary and budget engines

A shallow embedding of the pure computation layer of the expense tracker:

* the People Ledger (`personBalances`, `handleSettle` from
  `src/components/PeopleLedger.tsx`),
* the Dashboard summary aggregates (`allTimeStats`, `currentValues` from
  `src/components/Dashboard.tsx`),
* the budget engine (`BudgetPlanner.getBudgetSpent`,
  `BudgetPlanner.getBudgetProgress` from `src/components/BudgetPlanner.tsx`
  and `App.getBudgetSpent` from `src/App.tsx`),
* the backup/restore store operations (`restoreFromBackup` from the
  IndexedDB service module).

Amounts are integer currency units and are modelled by `Int`; JavaScript
number divisions that can be fractional are modelled by `Rat`.  Timestamps
(`occurredAt`, produced in the source by `new Date(...).getTime()`) are
modelled as epoch milliseconds (`Int`); calendar constructions such as
`new Date(year, month, 0, 23, 59, 59, 999)` are translated through a civil
calendar (`daysFromCivil`, the standard days-from-civil algorithm used by
date libraries), which reproduces the ordering and arithmetic of the
source's `Date` values in a timezone-free setting.
-/

/-- Transaction type: `'income' | 'expense'` from `types.ts`. -/
inductive TxType
  | income
  | expense
deriving DecidableEq, Repr

/-- A money movement record, from the `Transaction` interface in `types.ts`.
`occurredAt` is the epoch-millisecond value of the ISO timestamp. -/
structure Transaction where
  id : String
  occurredAt : Int
  amount : Int
  type : TxType
  name : String
  person : String
  tag : String
deriving DecidableEq, Repr

/-- Budget category, from `types.ts`. -/
inductive BudgetCategory
  | needs
  | wants
  | investment
deriving DecidableEq, Repr

/-- Budget window kind, from `types.ts`. -/
inductive BudgetType
  | monthly
  | custom
deriving DecidableEq, Repr

/-- A budget definition, from the `Budget` interface in `types.ts`.
`startDate`/`endDate` are the parsed `YYYY-MM-DD` fields and `month` the
parsed `YYYY-MM` field; absence of the optional fields is `none`. -/
structure Budget where
  id : String
  name : String
  amount : Int
  tags : List String
  category : BudgetCategory
  type : BudgetType
  startDate : Option (Int × Int × Int)
  endDate : Option (Int × Int × Int)
  month : Option (Int × Int)
  createdAt : String
  color : Option String
deriving DecidableEq, Repr

/-- An investment goal, from the `InvestmentGoal` interface in `types.ts`. -/
structure InvestmentGoal where
  id : String
  name : String
  targetAmount : Int
  currentAmount : Int
  tags : List String
  monthlyTarget : Option Int
  deadline : Option String
  createdAt : String
  color : Option String
deriving DecidableEq, Repr

/-! ## Calendar arithmetic

The source manipulates `Date` objects built from `(year, month, day)`
components and compares them through their epoch-millisecond values.  The
following functions give those millisecond values. -/

/-- Gregorian leap-year test. -/
def isLeapYear (y : Int) : Bool :=
  (y % 4 == 0 && y % 100 != 0) || y % 400 == 0

/-- Number of days in month `m` (1-12) of year `y`; this is the value of
`new Date(y, m, 0).getDate()`. -/
def daysInMonth (y m : Int) : Int :=
  if m = 2 then (if isLeapYear y then 29 else 28)
  else if m = 4 ∨ m = 6 ∨ m = 9 ∨ m = 11 then 30
  else 31

/-- Days since the epoch (1970-01-01) of the civil date `y-m-d`
(the standard days-from-civil algorithm). -/
def daysFromCivil (y m d : Int) : Int :=
  let yAdj := if m ≤ 2 then y - 1 else y
  let era := (if 0 ≤ yAdj then yAdj else yAdj - 399) / 400
  let yoe := yAdj - era * 400
  let mp := (m + 9) % 12
  let doy := (153 * mp + 2) / 5 + d - 1
  let doe := yoe * 365 + yoe / 4 - yoe / 100 + doy
  era * 146097 + doe - 719468

/-- Epoch milliseconds of the civil date `y-m-d` at `ms` milliseconds past
midnight: the `getTime()` value of `new Date(y, m - 1, d, ...)`. -/
def dateMillis (y m d ms : Int) : Int :=
  daysFromCivil y m d * 86400000 + ms

/-- A reference instant ("now" in the source), by calendar components.
`msOfDay` is the number of milliseconds past local midnight. -/
structure DateTime where
  year : Int
  month : Int
  day : Int
  msOfDay : Int
deriving DecidableEq, Repr

/-- `getTime()` of the instant. -/
def DateTime.toMillis (dt : DateTime) : Int :=
  dateMillis dt.year dt.month dt.day dt.msOfDay

/-! ## Ledger engine: settlement (`handleSettle` in `PeopleLedger.tsx`)

The source stamps each generated transaction with an id built from
`Date.now()` and `Math.random().toString(36).substr(2, 9)` and with
`occurredAt = new Date().toISOString()`.  Those effectful reads are made
explicit here as a `FreshSource`: the instant `nowMs` and the four random
suffixes the handler may consume. -/

/-- The hidden inputs `handleSettle` reads from the environment: the clock
and one random id suffix per potentially generated transaction. -/
structure FreshSource where
  nowMs : Int
  randCash : String
  randSpentRepay : String
  randSpentExp : String
  randOther : String
deriving DecidableEq, Repr

/-- The settlement generator (`handleSettle` in `PeopleLedger.tsx`): the
list of transactions it creates for the given amounts.  `balance` is the
outstanding balance of the counterparty shown in the settlement modal. -/
def handleSettle (env : FreshSource) (personName : String) (balance : Int)
    (cashReceived spentForMe other : Int) (description : String) :
    List Transaction :=
  let totalAmount := cashReceived + spentForMe + other
  if totalAmount = 0 then []
  else
    let cashTxs : List Transaction :=
      if cashReceived > 0 then
        [{ id := "settle-" ++ toString env.nowMs ++ "-cash-" ++ env.randCash
           occurredAt := env.nowMs
           amount := cashReceived
           type := TxType.income
           name := description
           person := personName
           tag := "Settlement" }]
      else []
    let spentTxs : List Transaction :=
      if spentForMe > 0 then
        [{ id := "settle-" ++ toString env.nowMs ++ "-spent-repay-" ++ env.randSpentRepay
           occurredAt := env.nowMs
           amount := spentForMe
           type := TxType.income
           name := "Settlement (Spent for me): " ++ description
           person := personName
           tag := "Settlement" },
         { id := "settle-" ++ toString env.nowMs ++ "-spent-exp-" ++ env.randSpentExp
           occurredAt := env.nowMs
           amount := spentForMe
           type := TxType.expense
           name := description
           person := "Myself"
           tag := "Settlement" }]
      else []
    let otherTxs : List Transaction :=
      if other > 0 then
        [{ id := "settle-" ++ toString env.nowMs ++ "-other-" ++ env.randOther
           occurredAt := env.nowMs
           amount := other
           type := if balance > 0 then TxType.income else TxType.expense
           name := description
           person := personName
           tag := "Settlement" }]
      else []
    cashTxs ++ spentTxs ++ otherTxs

/-- The projection of a generated transaction that forgets the freshly
generated components (`id` and `occurredAt`). -/
def visibleFields (t : Transaction) : Int × TxType × String × String × String :=
  (t.amount, t.type, t.name, t.person, t.tag)

/-! ## Ledger engine: per-person balances (`personBalances` in `PeopleLedger.tsx`) -/

/-- Derived per-counterparty balance, from the `PersonBalance` interface in
`PeopleLedger.tsx`. -/
structure PersonBalance where
  name : String
  totalOwed : Int
  totalOwing : Int
  transactions : List Transaction
deriving DecidableEq, Repr

/-- One step of the grouping loop of `personBalances`: route transaction `t`
into the group keyed by `t.person`, creating the group at the end when the
key is new.  This reproduces the JavaScript object used in the source,
whose string keys iterate in insertion order. -/
def addToGroups (groups : List (String × List Transaction)) (t : Transaction) :
    List (String × List Transaction) :=
  match groups with
  | [] => [(t.person, [t])]
  | (n, g) :: rest =>
    if n = t.person then (n, g ++ [t]) :: rest
    else (n, g) :: addToGroups rest t

/-- The grouping loop of `personBalances`: the groups (person, their
transactions in list order) in first-appearance order, as produced by the
source's `forEach` over a plain object. -/
def groupByPerson (l : List Transaction) : List (String × List Transaction) :=
  l.foldl addToGroups []

/-- The per-group body of `personBalances`: sort the group's transactions
descending by `occurredAt` (the source's stable `Array.prototype.sort`
with comparator `new Date(b.occurredAt) - new Date(a.occurredAt)`), then
total the expense amounts (`totalOwed`) and income amounts
(`totalOwing`). -/
def mkBalance (g : String × List Transaction) : PersonBalance :=
  let sorted := g.2.mergeSort (fun a b => decide (b.occurredAt ≤ a.occurredAt))
  { name := g.1
    totalOwed := ((sorted.filter (fun t => t.type == TxType.expense)).map Transaction.amount).sum
    totalOwing := ((sorted.filter (fun t => t.type == TxType.income)).map Transaction.amount).sum
    transactions := sorted }

/-- The ledger balance computation (`personBalances` in `PeopleLedger.tsx`,
the spec's `computeBalances`): filter out `"Myself"`, group by person in
first-appearance order, build each group's balance, and sort the balances
descending by `totalOwed - totalOwing` (stable sort with comparator
`netB - netA`). -/
def personBalances (transactions : List Transaction) : List PersonBalance :=
  let peopleTransactions := transactions.filter (fun t => t.person != "Myself")
  ((groupByPerson peopleTransactions).map mkBalance).mergeSort (fun a b =>
    decide (b.totalOwed - b.totalOwing ≤ a.totalOwed - a.totalOwing))

/-! ## Summary engine (`Dashboard.tsx`) -/

/-- The all-time aggregates of `allTimeStats` in `Dashboard.tsx`. -/
structure AllTimeStats where
  income : Int
  expenses : Int
  balance : Int
  investments : Int
  settlement : Int
  netWorth : Int
  transactionCount : Nat
deriving DecidableEq, Repr

/-- `allTimeStats` from `Dashboard.tsx`: sums over the full transaction
list; `settlement = settlementExpenses - settlementIncome` over
counterparty (`person != "Myself"`) transactions, `balance = income -
expenses`, `netWorth = balance + investments + settlement`. -/
def allTimeStats (transactions : List Transaction) : AllTimeStats :=
  let income :=
    ((transactions.filter (fun t => t.type == TxType.income)).map Transaction.amount).sum
  let expenses :=
    ((transactions.filter (fun t => t.type == TxType.expense)).map Transaction.amount).sum
  let investments :=
    ((transactions.filter (fun t => t.tag == "Investment")).map Transaction.amount).sum
  let settlementIncome :=
    ((transactions.filter (fun t =>
      t.type == TxType.income && t.person != "Myself")).map Transaction.amount).sum
  let settlementExpenses :=
    ((transactions.filter (fun t =>
      t.type == TxType.expense && t.person != "Myself")).map Transaction.amount).sum
  let settlement := settlementExpenses - settlementIncome
  let balance := income - expenses
  let netWorth := balance + investments + settlement
  { income := income
    expenses := expenses
    balance := balance
    investments := investments
    settlement := settlement
    netWorth := netWorth
    transactionCount := transactions.length }

/-- The point-in-time snapshot fields of `currentValues` in
`Dashboard.tsx`. -/
structure CurrentValues where
  balance : Int
  investments : Int
  settlement : Int
  netWorth : Int
deriving DecidableEq, Repr

/-- `currentValues` from `Dashboard.tsx`: a single walk over the
transactions accumulating `balance` (income adds, every expense subtracts)
and `investments` (only `expense`-typed transactions tagged
`"Investment"` add); `settlement` is the `settlementTotal` passed in from
the People Ledger and `netWorth = balance + investments + settlement`. -/
def currentValues (transactions : List Transaction) (settlementTotal : Int) :
    CurrentValues :=
  let acc := transactions.foldl
    (fun (s : Int × Int) t =>
      match t.type with
      | TxType.income => (s.1 + t.amount, s.2)
      | TxType.expense =>
        (s.1 - t.amount, if t.tag == "Investment" then s.2 + t.amount else s.2))
    (0, 0)
  { balance := acc.1
    investments := acc.2
    settlement := settlementTotal
    netWorth := acc.1 + acc.2 + settlementTotal }

/-! ## Budget engine -/

/-- JavaScript `Math.round` on a (finite) number: half-up rounding. -/
def jsRound (q : Rat) : Int := Int.floor (q + 1 / 2)

namespace BudgetPlanner

/-- `getBudgetSpent` from `BudgetPlanner.tsx`: sum of the amounts of the
expense transactions matching the budget's tags whose `occurredAt` lies in
the budget window.  For a `monthly` budget the window is always the
calendar month containing `now`; for a `custom` budget it is
`startDate .. endDate` (end of day), each bound defaulting to the current
month's bound when absent. -/
def getBudgetSpent (transactions : List Transaction) (budget : Budget)
    (now : DateTime) : Int :=
  let startMs : Int :=
    match budget.type with
    | BudgetType.monthly => dateMillis now.year now.month 1 0
    | BudgetType.custom =>
      match budget.startDate with
      | some (y, m, d) => dateMillis y m d 0
      | none => dateMillis now.year now.month 1 0
  let endMs : Int :=
    match budget.type with
    | BudgetType.monthly =>
      dateMillis now.year now.month (daysInMonth now.year now.month) 86399999
    | BudgetType.custom =>
      match budget.endDate with
      | some (y, m, d) => dateMillis y m d 86399999
      | none => dateMillis now.year now.month (daysInMonth now.year now.month) 86399999
  ((transactions.filter (fun t =>
      t.type == TxType.expense
      && (budget.tags.isEmpty || budget.tags.contains t.tag)
      && (decide (startMs ≤ t.occurredAt) && decide (t.occurredAt ≤ endMs)))).map
    Transaction.amount).sum

/-- The record returned by `getBudgetProgress` in `BudgetPlanner.tsx`. -/
structure BudgetProgress where
  spent : Int
  percentage : Int
  isOverBudget : Bool
  daysLeft : Int
  dailyBurnRate : Rat
  overspendProbability : Int
deriving DecidableEq, Repr

/-- `getBudgetProgress` from `BudgetPlanner.tsx`: percentage of budget
consumed (`Math.round(spent / amount * 100)`), over-budget flag
(`spent > amount`), days left in the calendar month of `now`, daily burn
rate (`spent` / days elapsed), and the overspend probability: a step
function of the pace ratio `projectedSpending / amount`, forced to `0`
when nothing is spent and to `100` when already over budget. -/
def getBudgetProgress (budget : Budget) (transactions : List Transaction)
    (now : DateTime) : BudgetProgress :=
  let monthEndMs := dateMillis now.year now.month (daysInMonth now.year now.month) 0
  let daysInM := daysInMonth now.year now.month
  let currentDay := now.day
  let daysLeftCount :=
    max 1 (Int.ceil ((((monthEndMs - now.toMillis : Int)) : Rat) / ((86400000 : Int) : Rat)))
  let spent := getBudgetSpent transactions budget now
  let percentage := jsRound ((spent : Rat) / (budget.amount : Rat) * 100)
  let daysPassed := max 1 currentDay
  let dailyBurnRate := (spent : Rat) / (daysPassed : Rat)
  let projectedSpending := dailyBurnRate * (daysInM : Rat)
  let overspendProbability : Int :=
    if spent > 0 then
      let paceRatio := projectedSpending / (budget.amount : Rat)
      if paceRatio > 3 / 2 then 95
      else if paceRatio > 6 / 5 then 80
      else if paceRatio > 1 then 65
      else if paceRatio > 4 / 5 then 30
      else if paceRatio > 3 / 5 then 10
      else 5
    else 0
  let overspendProbability := if spent > budget.amount then 100 else overspendProbability
  { spent := spent
    percentage := percentage
    isOverBudget := decide (spent > budget.amount)
    daysLeft := daysLeftCount
    dailyBurnRate := dailyBurnRate
    overspendProbability := overspendProbability }

end BudgetPlanner

namespace App

/-- `getBudgetSpent` from `App.tsx`: same tag/expense matching as the
planner's version, but for a `monthly` budget the window is the month
named by the budget's `month` field when present (falling back to the
month of `now`), and for a `custom` budget the parsed `endDate` is a
midnight bound (`new Date(budget.endDate)`). -/
def getBudgetSpent (transactions : List Transaction) (budget : Budget)
    (now : DateTime) : Int :=
  let startMs : Int :=
    match budget.type with
    | BudgetType.monthly =>
      let ym := budget.month.getD (now.year, now.month)
      dateMillis ym.1 ym.2 1 0
    | BudgetType.custom =>
      match budget.startDate with
      | some (y, m, d) => dateMillis y m d 0
      | none => dateMillis now.year now.month 1 0
  let endMs : Int :=
    match budget.type with
    | BudgetType.monthly =>
      let ym := budget.month.getD (now.year, now.month)
      dateMillis ym.1 ym.2 (daysInMonth ym.1 ym.2) 86399999
    | BudgetType.custom =>
      match budget.endDate with
      | some (y, m, d) => dateMillis y m d 0
      | none => dateMillis now.year now.month (daysInMonth now.year now.month) 86399999
  ((transactions.filter (fun t =>
      t.type == TxType.expense
      && (budget.tags.isEmpty || budget.tags.contains t.tag)
      && (decide (startMs ≤ t.occurredAt) && decide (t.occurredAt ≤ endMs)))).map
    Transaction.amount).sum

end App

/-- The window sum described by the specification for a monthly budget
with a fixed month field: matching expense transactions from the first
day of the budget's own month through the last day of that month at end
of day.  This follows the specification's words and is compared against
the source's `getBudgetSpent` implementations. -/
def claimedMonthlySpent (transactions : List Transaction) (budget : Budget) : Int :=
  match budget.month with
  | some (y, m) =>
    ((transactions.filter (fun t =>
        t.type == TxType.expense
        && (budget.tags.isEmpty || budget.tags.contains t.tag)
        && (decide (dateMillis y m 1 0 ≤ t.occurredAt)
            && decide (t.occurredAt ≤ dateMillis y m (daysInMonth y m) 86399999)))).map
      Transaction.amount).sum
  | none => 0

/-! ## Storage model and backup restore (`services/db.ts`)

Each IndexedDB object store is modelled as an association list from key to
value; `put` is upsert by key, `get` is lookup. -/

/-- IndexedDB `put` (upsert by key). -/
def storePut {α : Type} (s : List (String × α)) (k : String) (v : α) :
    List (String × α) :=
  match s with
  | [] => [(k, v)]
  | (k0, v0) :: rest =>
    if k0 = k then (k, v) :: rest else (k0, v0) :: storePut rest k v

/-- IndexedDB `get` (lookup by key). -/
def storeGet {α : Type} (s : List (String × α)) (k : String) : Option α :=
  (s.find? (fun e => e.1 == k)).map Prod.snd

/-- The value stored in the `settings` store (`SettingsData` in
`services/db.ts`). -/
structure SettingsData where
  tags : List String
  names : List String
  initialized : Bool
deriving DecidableEq, Repr

/-- The `settings` member of a backup file. -/
structure BackupSettings where
  tags : List String
  names : List String
deriving DecidableEq, Repr

/-- The backup file contents (`BackupData` in `services/db.ts`). -/
structure BackupData where
  version : Int
  exportedAt : String
  transactions : List Transaction
  settings : BackupSettings
  budgets : List Budget
  investmentGoals : List InvestmentGoal
deriving DecidableEq, Repr

/-- The database state: the four object stores touched by a restore. -/
structure StoreState where
  transactions : List (String × Transaction)
  settings : List (String × SettingsData)
  budgets : List (String × Budget)
  investmentGoals : List (String × InvestmentGoal)
deriving DecidableEq, Repr

/-- Restore mode (`'merge' | 'replace'`). -/
inductive RestoreMode
  | merge
  | replace
deriving DecidableEq, Repr

/-- `restoreFromBackup` from `services/db.ts` as a state transformer: in
`replace` mode all four stores are cleared first; settings are always
overwritten (with `initialized := true`); every budget and investment
goal of the backup is `put` unconditionally; each backup transaction is
`put`, except that in `merge` mode a transaction whose id is already
present is skipped. -/
def restoreFromBackup (data : BackupData) (mode : RestoreMode) (st : StoreState) :
    StoreState :=
  let st1 := match mode with
    | RestoreMode.replace =>
      { st with transactions := [], settings := [], budgets := [], investmentGoals := [] }
    | RestoreMode.merge => st
  let restoredSettings : SettingsData :=
    { tags := data.settings.tags, names := data.settings.names, initialized := true }
  let st2 := { st1 with settings := storePut st1.settings ("user-settings") restoredSettings }
  let restoredBudgets :=
    data.budgets.foldl (fun s b => storePut s b.id b) st2.budgets
  let st3 := { st2 with budgets := restoredBudgets }
  let restoredGoals :=
    data.investmentGoals.foldl (fun s g => storePut s g.id g) st3.investmentGoals
  let st4 := { st3 with investmentGoals := restoredGoals }
  let restoredTransactions :=
    data.transactions.foldl
      (fun s t =>
        match mode with
        | RestoreMode.merge =>
          if (storeGet s t.id).isSome then s else storePut s t.id t
        | RestoreMode.replace => storePut s t.id t)
      st4.transactions
  { st4 with transactions := restoredTransactions }

/-! ## Claim C9: settling with all three amounts zero is a no-op -/

/-- C9: for every person name, outstanding balance and description,
`handleSettle` called with `cashAmount = spentForMeAmount = otherAmount = 0`
produces no transactions at all. -/
theorem claim_C9 (env : FreshSource) (personName : String) (balance : Int)
    (description : String) :
    handleSettle env personName balance 0 0 0 description = [] := by
  simp [handleSettle]

/-! ## Claim C3: the spent-for-me settlement component -/

/-- C3: a settlement call with `spentForMeAmount > 0` and the other two
amounts zero produces exactly two transactions, both of amount
`spentForMeAmount` and both tagged `"Settlement"`: an income-type one
against the counterparty `personName` and an expense-type one against
`"Myself"`. -/
theorem claim_C3 (env : FreshSource) (personName : String) (balance : Int)
    (spentForMe : Int) (description : String) (hs : 0 < spentForMe) :
    ∃ t1 t2, handleSettle env personName balance 0 spentForMe 0 description = [t1, t2]
      ∧ t1.amount = spentForMe ∧ t2.amount = spentForMe
      ∧ t1.tag = "Settlement" ∧ t2.tag = "Settlement"
      ∧ t1.type = TxType.income ∧ t1.person = personName
      ∧ t2.type = TxType.expense ∧ t2.person = "Myself" := by
  have hne : ¬ ((0 : Int) + spentForMe + 0 = 0) := by omega
  have hc : ¬ ((0 : Int) > 0) := by omega
  refine ⟨{ id := "settle-" ++ toString env.nowMs ++ "-spent-repay-" ++ env.randSpentRepay
            occurredAt := env.nowMs
            amount := spentForMe
            type := TxType.income
            name := "Settlement (Spent for me): " ++ description
            person := personName
            tag := "Settlement" },
          { id := "settle-" ++ toString env.nowMs ++ "-spent-exp-" ++ env.randSpentExp
            occurredAt := env.nowMs
            amount := spentForMe
            type := TxType.expense
            name := description
            person := "Myself"
            tag := "Settlement" },
          ?_, rfl, rfl, rfl, rfl, rfl, rfl, rfl, rfl⟩
  simp only [handleSettle, if_neg hne, if_neg hc, if_pos hs]
  rfl

/-- Concrete settlement fixture used by the C3 witness. -/
def freshA : FreshSource :=
  { nowMs := 1700000000000, randCash := "aaaaaaaaa", randSpentRepay := "bbbbbbbbb",
    randSpentExp := "ccccccccc", randOther := "ddddddddd" }

/-- C3 witness: the theorem applied at `spentForMeAmount = 500`. -/
theorem claim_C3_witness :
    (0 : Int) < 500
    ∧ ∃ t1 t2, handleSettle freshA ("John") 600 0 500 0 ("dinner") = [t1, t2]
      ∧ t1.amount = 500 ∧ t2.amount = 500
      ∧ t1.tag = "Settlement" ∧ t2.tag = "Settlement"
      ∧ t1.type = TxType.income ∧ t1.person = "John"
      ∧ t2.type = TxType.expense ∧ t2.person = "Myself" :=
  ⟨by decide, claim_C3 freshA ("John") 600 500 ("dinner") (by decide)⟩

/-! ## Claim C8: determinism of the engine functions

The aggregation functions (`personBalances`, `allTimeStats`,
`currentValues`, the budget computations) are pure functions of their
explicit arguments.  `handleSettle`, however, reads the clock and
`Math.random()` when building transaction ids and timestamps
(`FreshSource` here), so calling it twice with identical user-visible
inputs does not yield bit-identical output; it is deterministic only
after erasing the freshly generated `id` and `occurredAt` fields. -/

/-- A second settlement fixture differing from `freshA` only in one
random suffix. -/
def freshB : FreshSource :=
  { freshA with randCash := "zzzzzzzzz" }

/-- C8 counterexample: two `handleSettle` calls with identical
user-visible inputs (person, balance, amounts, description) but distinct
hidden random draws return different transaction lists, so the output is
not bit-identical across calls and does depend on hidden randomness. -/
theorem claim_C8_counterexample :
    handleSettle freshA ("John") 600 100 0 0 ("cash") ≠
      handleSettle freshB ("John") 600 100 0 0 ("cash") := by
  decide

/-- C8 (amended): every aggregation engine function is a pure function of
its arguments, and `handleSettle` is deterministic modulo the freshly
generated fields: for any two draws of the clock/randomness, the outputs
agree after erasing `id` and `occurredAt`, and no input is mutated. -/
theorem claim_C8 (e1 e2 : FreshSource) (personName : String) (balance : Int)
    (cashReceived spentForMe other : Int) (description : String) :
    (handleSettle e1 personName balance cashReceived spentForMe other description).map
        visibleFields
      = (handleSettle e2 personName balance cashReceived spentForMe other description).map
        visibleFields := by
  unfold handleSettle
  by_cases h0 : cashReceived + spentForMe + other = 0
  · simp [h0]
  · simp only [if_neg h0]
    split_ifs <;> simp [visibleFields]

/-! ## Claim C7: the investments aggregate of the point-in-time snapshot -/

/-- An income-type transaction tagged `"Investment"`. -/
def investmentIncomeTx : Transaction :=
  { id := "t-inv", occurredAt := 0, amount := 100, type := TxType.income,
    name := "dividends", person := "Myself", tag := "Investment" }

/-- C7 counterexample: the point-in-time snapshot (`currentValues`) does
not count income-type `"Investment"` transactions, so its `investments`
differs from the type-regardless sum the claim states: on a single
income-type `Investment` transaction of amount 100 the snapshot reports
0, not 100. -/
theorem claim_C7_counterexample :
    ¬ ((currentValues [investmentIncomeTx] 0).investments
        = (([investmentIncomeTx].filter (fun t => t.tag == "Investment")).map
            Transaction.amount).sum) := by
  decide

/-- The invariant of the accumulation loop of `currentValues`: the second
component collects the amounts of expense-type `"Investment"`-tagged
transactions. -/
theorem currentValues_loop_snd (ts : List Transaction) : ∀ p : Int × Int,
    (ts.foldl
      (fun (s : Int × Int) t =>
        match t.type with
        | TxType.income => (s.1 + t.amount, s.2)
        | TxType.expense =>
          (s.1 - t.amount, if t.tag == "Investment" then s.2 + t.amount else s.2)) p).2
    = p.2 + ((ts.filter (fun t =>
        t.type == TxType.expense && t.tag == "Investment")).map Transaction.amount).sum := by
  induction ts with
  | nil => intro p; simp
  | cons t ts ih =>
    intro p
    rw [List.foldl_cons, ih, List.filter_cons]
    cases ht : t.type with
    | income => simp [ht]
    | expense =>
      by_cases htag : t.tag == "Investment"
      · simp [ht, htag]
        ring
      · simp [ht, htag]

/-- C7 (amended): the point-in-time snapshot's `investments` equals the
sum of amounts over **expense-type** transactions tagged `"Investment"`
(income-type `Investment` transactions are excluded), that value is what
feeds `netWorth = balance + investments + settlement`, the snapshot's
`settlement` is the injected total, and the all-time stats' `investments`
is the type-regardless sum the claim describes. -/
theorem claim_C7 (ts : List Transaction) (settlementTotal : Int) :
    (currentValues ts settlementTotal).investments
        = ((ts.filter (fun t =>
            t.type == TxType.expense && t.tag == "Investment")).map Transaction.amount).sum
    ∧ (currentValues ts settlementTotal).netWorth
        = (currentValues ts settlementTotal).balance
          + (currentValues ts settlementTotal).investments + settlementTotal
    ∧ (currentValues ts settlementTotal).settlement = settlementTotal
    ∧ (allTimeStats ts).investments
        = ((ts.filter (fun t => t.tag == "Investment")).map Transaction.amount).sum := by
  refine ⟨?_, rfl, rfl, rfl⟩
  have h := currentValues_loop_snd ts (0, 0)
  simpa [currentValues] using h

/-! ## Claim C4: over budget forces a 100% overspend probability -/

/-- C4: whenever `getBudgetProgress` reports `isOverBudget`
(`spent > amount`), the `overspendProbability` it reports is exactly 100,
regardless of the pace-ratio bracket. -/
theorem claim_C4 (budget : Budget) (ts : List Transaction) (now : DateTime)
    (h : (BudgetPlanner.getBudgetProgress budget ts now).isOverBudget = true) :
    (BudgetPlanner.getBudgetProgress budget ts now).overspendProbability = 100 := by
  unfold BudgetPlanner.getBudgetProgress at h ⊢
  simp only [decide_eq_true_eq] at h
  simp only [if_pos h]

/-- A reference instant: 2024-03-15 at local midnight. -/
def march15 : DateTime := { year := 2024, month := 3, day := 15, msOfDay := 0 }

/-- A monthly budget of 100 with no tag restriction. -/
def overBudget : Budget :=
  { id := "b-over", name := "Snacks", amount := 100, tags := [],
    category := BudgetCategory.wants, type := BudgetType.monthly,
    startDate := none, endDate := none, month := none,
    createdAt := "2024-03-01", color := none }

/-- An expense of 200 inside March 2024. -/
def bigSpendTx : Transaction :=
  { id := "t-big", occurredAt := dateMillis 2024 3 10 0, amount := 200,
    type := TxType.expense, name := "snacks", person := "Myself", tag := "Food" }

/-- C4 witness: a budget of 100 with 200 already spent this month is over
budget, and the theorem yields probability 100 there. -/
theorem claim_C4_witness :
    (BudgetPlanner.getBudgetProgress overBudget [bigSpendTx] march15).isOverBudget = true
    ∧ (BudgetPlanner.getBudgetProgress overBudget [bigSpendTx] march15).overspendProbability
        = 100 :=
  ⟨by decide, claim_C4 overBudget [bigSpendTx] march15 (by decide)⟩

/-! ## Claim C6: which month a monthly budget's spent window uses

The claim states that the window used by `getBudgetSpent` for a monthly
budget with a fixed `month` field is that budget's own month.  That is
true of the `App.tsx` implementation but false of the `BudgetPlanner.tsx`
implementation, which always uses the calendar month containing the
reference date and ignores the `month` field. -/

/-- A monthly budget for January 2024 restricted to tag `"Food"`. -/
def janBudget : Budget :=
  { id := "b-jan", name := "Food Jan", amount := 1000, tags := ["Food"],
    category := BudgetCategory.needs, type := BudgetType.monthly,
    startDate := none, endDate := none, month := some (2024, 1),
    createdAt := "2024-01-01", color := none }

/-- A `"Food"` expense of 100 on 2024-01-10. -/
def janFoodTx : Transaction :=
  { id := "t-jan", occurredAt := dateMillis 2024 1 10 0, amount := 100,
    type := TxType.expense, name := "groceries", person := "Myself", tag := "Food" }

/-- C6 counterexample: with the reference date in March 2024, the
planner's `getBudgetSpent` for the January budget returns 0 — it does not
sum over the budget's fixed month (which contains a matching expense of
100), contradicting the claim for this implementation of `spent`. -/
theorem claim_C6_counterexample :
    ¬ (BudgetPlanner.getBudgetSpent [janFoodTx] janBudget march15
        = claimedMonthlySpent [janFoodTx] janBudget) := by
  decide

/-- C6 (amended): for a monthly budget whose `month` field is present,
`App.tsx`'s `getBudgetSpent` sums over exactly the claimed window (first
day of the budget's month through its last day at end of day), while
`BudgetPlanner.tsx`'s `getBudgetSpent` ignores the `month` field entirely
(it computes the same value as for the budget with the field removed,
always using the calendar month of the reference date). -/
theorem claim_C6 (ts : List Transaction) (b : Budget) (now : DateTime)
    (y m : Int) (hty : b.type = BudgetType.monthly) (hm : b.month = some (y, m)) :
    App.getBudgetSpent ts b now = claimedMonthlySpent ts b
    ∧ BudgetPlanner.getBudgetSpent ts b now
        = BudgetPlanner.getBudgetSpent ts { b with month := none } now := by
  constructor
  · unfold App.getBudgetSpent claimedMonthlySpent
    rw [hty, hm]
    simp
  · rfl

/-- C6 witness: the amended theorem applied to the January budget with a
March reference date; `App.tsx`'s version indeed returns the claimed
window sum (here 100) and the planner's version is month-blind. -/
theorem claim_C6_witness :
    (App.getBudgetSpent [janFoodTx] janBudget march15
        = claimedMonthlySpent [janFoodTx] janBudget
      ∧ BudgetPlanner.getBudgetSpent [janFoodTx] janBudget march15
        = BudgetPlanner.getBudgetSpent [janFoodTx] { janBudget with month := none } march15)
    ∧ claimedMonthlySpent [janFoodTx] janBudget = 100 :=
  ⟨claim_C6 [janFoodTx] janBudget march15 2024 1 rfl rfl, by decide⟩

/-! ## Claim C5: progress is monotonic in spend -/

/-- Every month length is positive. -/
theorem daysInMonth_pos (y m : Int) : 0 < daysInMonth y m := by
  unfold daysInMonth
  split_ifs <;> norm_num

/-- `Math.round` is monotone. -/
theorem jsRound_mono {a b : Rat} (h : a ≤ b) : jsRound a ≤ jsRound b := by
  unfold jsRound
  exact Int.floor_le_floor (by linarith)

/-- The overspend-probability bracket is a monotone step function of the
pace ratio. -/
theorem bracket_mono {p q : Rat} (h : p ≤ q) :
    (if p > 3 / 2 then (95 : Int) else if p > 6 / 5 then 80 else if p > 1 then 65
      else if p > 4 / 5 then 30 else if p > 3 / 5 then 10 else 5)
    ≤ (if q > 3 / 2 then (95 : Int) else if q > 6 / 5 then 80 else if q > 1 then 65
      else if q > 4 / 5 then 30 else if q > 3 / 5 then 10 else 5) := by
  split_ifs <;> linarith

/-- C5: for a fixed budget and reference date, a transaction list with a
smaller-or-equal spent total yields a smaller-or-equal `percentage` and
`overspendProbability` (covering the `spent = 0` forced-zero case and the
over-budget forced-100 case).  The budget amount is assumed positive, as
guaranteed by budget creation. -/
theorem claim_C5 (b : Budget) (now : DateTime) (ts1 ts2 : List Transaction)
    (ha : 0 < b.amount)
    (hs : BudgetPlanner.getBudgetSpent ts1 b now ≤ BudgetPlanner.getBudgetSpent ts2 b now) :
    (BudgetPlanner.getBudgetProgress b ts1 now).percentage
      ≤ (BudgetPlanner.getBudgetProgress b ts2 now).percentage
    ∧ (BudgetPlanner.getBudgetProgress b ts1 now).overspendProbability
      ≤ (BudgetPlanner.getBudgetProgress b ts2 now).overspendProbability := by
  have haq : (0 : Rat) < (b.amount : Rat) := by exact_mod_cast ha
  have hq : ((BudgetPlanner.getBudgetSpent ts1 b now : Int) : Rat)
      ≤ ((BudgetPlanner.getBudgetSpent ts2 b now : Int) : Rat) := by exact_mod_cast hs
  unfold BudgetPlanner.getBudgetProgress
  dsimp only
  set s1 := BudgetPlanner.getBudgetSpent ts1 b now with hs1def
  set s2 := BudgetPlanner.getBudgetSpent ts2 b now with hs2def
  constructor
  · apply jsRound_mono
    have hdiv : (s1 : Rat) / (b.amount : Rat) ≤ (s2 : Rat) / (b.amount : Rat) :=
      (div_le_div_iff_of_pos_right haq).2 hq
    nlinarith [hdiv]
  · have hdp : (0 : Int) < max 1 now.day := lt_of_lt_of_le one_pos (le_max_left 1 now.day)
    have hdpq : (0 : Rat) < ((max 1 now.day : Int) : Rat) := by exact_mod_cast hdp
    have hdimq : (0 : Rat) ≤ ((daysInMonth now.year now.month : Int) : Rat) := by
      have := daysInMonth_pos now.year now.month
      exact_mod_cast this.le
    have hpace :
        (s1 : Rat) / ((max 1 now.day : Int) : Rat)
            * ((daysInMonth now.year now.month : Int) : Rat) / (b.amount : Rat)
        ≤ (s2 : Rat) / ((max 1 now.day : Int) : Rat)
            * ((daysInMonth now.year now.month : Int) : Rat) / (b.amount : Rat) := by
      apply (div_le_div_iff_of_pos_right haq).2
      apply mul_le_mul_of_nonneg_right _ hdimq
      exact (div_le_div_iff_of_pos_right hdpq).2 hq
    by_cases h2 : s2 > b.amount
    · rw [if_pos h2]
      by_cases h1 : s1 > b.amount
      · rw [if_pos h1]
      · rw [if_neg h1]
        split_ifs <;> norm_num
    · have h1 : ¬ s1 > b.amount := fun hh => h2 (lt_of_lt_of_le hh hs)
      rw [if_neg h1, if_neg h2]
      by_cases h1p : s1 > 0
      · have h2p : s2 > 0 := lt_of_lt_of_le h1p hs
        rw [if_pos h1p, if_pos h2p]
        exact bracket_mono hpace
      · rw [if_neg h1p]
        split_ifs <;> norm_num

/-- C5 witness: for the 100-budget at 2024-03-15, spending nothing versus
spending 200 gives pointwise smaller percentage and probability. -/
theorem claim_C5_witness :
    (0 : Int) < overBudget.amount
    ∧ BudgetPlanner.getBudgetSpent [] overBudget march15
        ≤ BudgetPlanner.getBudgetSpent [bigSpendTx] overBudget march15
    ∧ ((BudgetPlanner.getBudgetProgress overBudget [] march15).percentage
        ≤ (BudgetPlanner.getBudgetProgress overBudget [bigSpendTx] march15).percentage
      ∧ (BudgetPlanner.getBudgetProgress overBudget [] march15).overspendProbability
        ≤ (BudgetPlanner.getBudgetProgress overBudget [bigSpendTx] march15).overspendProbability) :=
  ⟨by decide, by decide,
    claim_C5 overBudget march15 [] [bigSpendTx] (by decide) (by decide)⟩

/-! ## Grouping lemmas for the ledger balance computation -/

/-- The keys (person names) of a group list. -/
def keysOf (gs : List (String × List Transaction)) : List String :=
  gs.map Prod.fst

/-- The transactions grouped under key `n` (empty when the key is absent). -/
def contentOf (gs : List (String × List Transaction)) (n : String) :
    List Transaction :=
  ((gs.find? (fun g => g.1 == n)).map Prod.snd).getD []

theorem contentOf_nil (n : String) : contentOf [] n = [] := rfl

theorem contentOf_cons (k : String) (g : List Transaction)
    (rest : List (String × List Transaction)) (n : String) :
    contentOf ((k, g) :: rest) n = if k = n then g else contentOf rest n := by
  by_cases h : k = n <;> simp [contentOf, h]

theorem contentOf_addToGroups (gs : List (String × List Transaction))
    (t : Transaction) (n : String) :
    contentOf (addToGroups gs t) n
      = contentOf gs n ++ (if t.person = n then [t] else []) := by
  induction gs with
  | nil =>
    by_cases h : t.person = n <;>
      simp [addToGroups, contentOf_cons, contentOf_nil, h]
  | cons hd rest ih =>
    obtain ⟨k, g⟩ := hd
    by_cases hk : k = t.person
    · rw [addToGroups, if_pos hk, contentOf_cons, contentOf_cons]
      by_cases hn : k = n
      · have hpn : t.person = n := hk ▸ hn
        simp [hn, hpn]
      · have hpn : ¬ t.person = n := fun h => hn (hk.trans h)
        simp [hn, hpn]
    · rw [addToGroups, if_neg hk, contentOf_cons, contentOf_cons]
      by_cases hn : k = n
      · have hpn : ¬ t.person = n := fun h => hk (hn.trans h.symm)
        simp [hn, hpn]
      · simp [hn, ih]

theorem contentOf_foldl (ts : List Transaction) :
    ∀ (gs : List (String × List Transaction)) (n : String),
    contentOf (ts.foldl addToGroups gs) n
      = contentOf gs n ++ ts.filter (fun t => t.person == n) := by
  induction ts with
  | nil => intro gs n; simp
  | cons t ts ih =>
    intro gs n
    rw [List.foldl_cons, ih, contentOf_addToGroups, List.filter_cons]
    by_cases h : t.person = n <;> simp [h]

theorem mem_keysOf_addToGroups (gs : List (String × List Transaction))
    (t : Transaction) (n : String) :
    n ∈ keysOf (addToGroups gs t) ↔ n ∈ keysOf gs ∨ n = t.person := by
  induction gs with
  | nil => simp [addToGroups, keysOf]
  | cons hd rest ih =>
    obtain ⟨k, g⟩ := hd
    by_cases hk : k = t.person
    · rw [addToGroups, if_pos hk]
      subst hk
      simp [keysOf]
      tauto
    · rw [addToGroups, if_neg hk]
      simp only [keysOf, List.map_cons, List.mem_cons] at ih ⊢
      tauto

theorem keysOf_addToGroups_nodup (gs : List (String × List Transaction))
    (t : Transaction) (h : (keysOf gs).Nodup) :
    (keysOf (addToGroups gs t)).Nodup := by
  induction gs with
  | nil => simp [addToGroups, keysOf]
  | cons hd rest ih =>
    obtain ⟨k, g⟩ := hd
    simp only [keysOf, List.map_cons, List.nodup_cons] at h
    by_cases hk : k = t.person
    · rw [addToGroups, if_pos hk]
      simp only [keysOf, List.map_cons, List.nodup_cons]
      exact ⟨h.1, h.2⟩
    · rw [addToGroups, if_neg hk]
      simp only [keysOf, List.map_cons, List.nodup_cons]
      refine ⟨?_, ih h.2⟩
      intro hmem
      rcases (mem_keysOf_addToGroups rest t k).1 hmem with hin | heq
      · exact h.1 hin
      · exact hk heq

theorem mem_keysOf_foldl (ts : List Transaction) :
    ∀ (gs : List (String × List Transaction)) (n : String),
    n ∈ keysOf (ts.foldl addToGroups gs)
      ↔ n ∈ keysOf gs ∨ ∃ t ∈ ts, t.person = n := by
  induction ts with
  | nil => intro gs n; simp
  | cons t ts ih =>
    intro gs n
    rw [List.foldl_cons, ih, mem_keysOf_addToGroups]
    constructor
    · rintro ((hin | heq) | ⟨u, hu, hp⟩)
      · exact Or.inl hin
      · exact Or.inr ⟨t, by simp, heq.symm⟩
      · exact Or.inr ⟨u, by simp [hu], hp⟩
    · rintro (hin | ⟨u, hu, hp⟩)
      · exact Or.inl (Or.inl hin)
      · rcases List.mem_cons.1 hu with rfl | hu'
        · exact Or.inl (Or.inr hp.symm)
        · exact Or.inr ⟨u, hu', hp⟩

theorem keysOf_foldl_nodup (ts : List Transaction) :
    ∀ gs : List (String × List Transaction),
    (keysOf gs).Nodup → (keysOf (ts.foldl addToGroups gs)).Nodup := by
  induction ts with
  | nil => intro gs h; simpa using h
  | cons t ts ih =>
    intro gs h
    rw [List.foldl_cons]
    exact ih _ (keysOf_addToGroups_nodup gs t h)

theorem snd_eq_contentOf (gs : List (String × List Transaction))
    (h : (keysOf gs).Nodup) (p : String × List Transaction) (hp : p ∈ gs) :
    p.2 = contentOf gs p.1 := by
  induction gs with
  | nil => simp at hp
  | cons hd rest ih =>
    obtain ⟨k, g⟩ := hd
    simp only [keysOf, List.map_cons, List.nodup_cons] at h
    rcases List.mem_cons.1 hp with rfl | hp'
    · simp [contentOf_cons]
    · have hk : ¬ k = p.1 := by
        intro hkp
        exact h.1 (hkp ▸ (List.mem_map_of_mem Prod.fst hp'))
      rw [contentOf_cons, if_neg hk]
      exact ih h.2 hp'

open List in
theorem flatMap_addToGroups_perm (gs : List (String × List Transaction))
    (t : Transaction) :
    (addToGroups gs t).flatMap Prod.snd ~ gs.flatMap Prod.snd ++ [t] := by
  induction gs with
  | nil => simp [addToGroups]
  | cons hd rest ih =>
    obtain ⟨k, g⟩ := hd
    by_cases hk : k = t.person
    · rw [addToGroups, if_pos hk]
      simp only [List.flatMap_cons]
      calc (g ++ [t]) ++ rest.flatMap Prod.snd
          = g ++ ([t] ++ rest.flatMap Prod.snd) := by simp
        _ ~ g ++ (rest.flatMap Prod.snd ++ [t]) :=
            List.Perm.append_left g List.perm_append_comm
        _ = (g ++ rest.flatMap Prod.snd) ++ [t] := by simp
    · rw [addToGroups, if_neg hk]
      simp only [List.flatMap_cons]
      calc g ++ (addToGroups rest t).flatMap Prod.snd
          ~ g ++ (rest.flatMap Prod.snd ++ [t]) := List.Perm.append_left g ih
        _ = (g ++ rest.flatMap Prod.snd) ++ [t] := by simp

open List in
theorem flatMap_foldl_perm (ts : List Transaction) :
    ∀ gs : List (String × List Transaction),
    (ts.foldl addToGroups gs).flatMap Prod.snd ~ gs.flatMap Prod.snd ++ ts := by
  induction ts with
  | nil => intro gs; simp
  | cons t ts ih =>
    intro gs
    rw [List.foldl_cons]
    calc ((ts.foldl addToGroups (addToGroups gs t)).flatMap Prod.snd)
        ~ (addToGroups gs t).flatMap Prod.snd ++ ts := ih _
      _ ~ (gs.flatMap Prod.snd ++ [t]) ++ ts :=
          (flatMap_addToGroups_perm gs t).append_right ts
      _ = gs.flatMap Prod.snd ++ (t :: ts) := by simp

/-- The signed amount of a transaction: positive for expenses (owed to the
user), negative for incomes (owed by the user); used to relate the ledger
sums to the summary engine's settlement. -/
def signedAmount (t : Transaction) : Int :=
  match t.type with
  | TxType.expense => t.amount
  | TxType.income => -t.amount

theorem sum_filter_sub (l : List Transaction) :
    ((l.filter (fun t => t.type == TxType.expense)).map Transaction.amount).sum
      - ((l.filter (fun t => t.type == TxType.income)).map Transaction.amount).sum
    = (l.map signedAmount).sum := by
  induction l with
  | nil => simp
  | cons t ts ih =>
    rw [List.filter_cons, List.filter_cons, List.map_cons]
    cases ht : t.type with
    | income =>
      simp only [ht, signedAmount]
      simp only [List.sum_cons]
      simp [ht]
      linarith [ih]
    | expense =>
      simp only [ht, signedAmount]
      simp only [List.sum_cons]
      simp [ht]
      linarith [ih]

theorem mkBalance_name (g : String × List Transaction) : (mkBalance g).name = g.1 := rfl

theorem mkBalance_totalOwed (g : String × List Transaction) :
    (mkBalance g).totalOwed
      = ((g.2.filter (fun t => t.type == TxType.expense)).map Transaction.amount).sum := by
  have h := List.mergeSort_perm g.2 (fun a b => decide (b.occurredAt ≤ a.occurredAt))
  exact List.Perm.sum_eq ((h.filter _).map _)

theorem mkBalance_totalOwing (g : String × List Transaction) :
    (mkBalance g).totalOwing
      = ((g.2.filter (fun t => t.type == TxType.income)).map Transaction.amount).sum := by
  have h := List.mergeSort_perm g.2 (fun a b => decide (b.occurredAt ≤ a.occurredAt))
  exact List.Perm.sum_eq ((h.filter _).map _)

theorem filter_person_type (ts : List Transaction) (n : String)
    (hn : n ≠ "Myself") (ty : TxType) :
    ((ts.filter (fun t => t.person != "Myself")).filter
        (fun t => t.person == n)).filter (fun t => t.type == ty)
      = ts.filter (fun t => t.person == n && t.type == ty) := by
  rw [List.filter_filter, List.filter_filter]
  apply List.filter_congr
  intro a _
  by_cases h1 : a.person = n
  · have hnm : a.person ≠ "Myself" := by rw [h1]; exact hn
    have hb : (a.person == n) = true := by simp [h1]
    have hbm : (a.person != "Myself") = true := by simp [hnm]
    rw [hb, hbm]
    simp
  · have hb : (a.person == n) = false := by simp [h1]
    rw [hb]
    simp

open List in
theorem personBalances_perm (ts : List Transaction) :
    personBalances ts
      ~ (groupByPerson (ts.filter (fun t => t.person != "Myself"))).map mkBalance := by
  unfold personBalances
  exact List.mergeSort_perm _ _

open List in
/-- C1: `personBalances` returns one balance per distinct counterparty
(person other than `"Myself"`) appearing in the transaction list, with
`totalOwed` the sum of that person's expense amounts and `totalOwing` the
sum of that person's income amounts, the result sorted descending by
`totalOwed - totalOwing`, and the empty list mapped to the empty list. -/
theorem claim_C1 (ts : List Transaction) :
    personBalances [] = []
    ∧ (∀ p ∈ personBalances ts,
        p.totalOwed = ((ts.filter (fun t =>
            t.person == p.name && t.type == TxType.expense)).map Transaction.amount).sum
        ∧ p.totalOwing = ((ts.filter (fun t =>
            t.person == p.name && t.type == TxType.income)).map Transaction.amount).sum)
    ∧ ((personBalances ts).map PersonBalance.name).Nodup
    ∧ (∀ n : String, n ∈ (personBalances ts).map PersonBalance.name
        ↔ (n ≠ "Myself" ∧ ∃ t ∈ ts, t.person = n))
    ∧ (personBalances ts).Pairwise (fun a b =>
        b.totalOwed - b.totalOwing ≤ a.totalOwed - a.totalOwing) := by
  have hperm := personBalances_perm ts
  have hkeys : (keysOf (groupByPerson
      (ts.filter (fun t => t.person != "Myself")))).Nodup :=
    keysOf_foldl_nodup _ [] (by simp [keysOf])
  have hkeymem : ∀ n, n ∈ keysOf (groupByPerson
      (ts.filter (fun t => t.person != "Myself")))
      ↔ ∃ t ∈ ts.filter (fun t => t.person != "Myself"), t.person = n := by
    intro n
    unfold groupByPerson
    rw [mem_keysOf_foldl]
    simp [keysOf]
  have hcontent : ∀ g ∈ groupByPerson (ts.filter (fun t => t.person != "Myself")),
      g.2 = (ts.filter (fun t => t.person != "Myself")).filter
        (fun t => t.person == g.1) := by
    intro g hg
    rw [snd_eq_contentOf _ hkeys g hg]
    unfold groupByPerson
    rw [contentOf_foldl]
    simp [contentOf_nil]
  have hnames : (personBalances ts).map PersonBalance.name
      ~ keysOf (groupByPerson (ts.filter (fun t => t.person != "Myself"))) := by
    have h := hperm.map PersonBalance.name
    rw [List.map_map] at h
    exact h
  refine ⟨?_, ?_, ?_, ?_, ?_⟩
  · simp [personBalances, groupByPerson]
  · intro p hp
    have hp' := hperm.mem_iff.1 hp
    obtain ⟨g, hg, rfl⟩ := List.mem_map.1 hp'
    have hn : g.1 ≠ "Myself" := by
      have hkey : g.1 ∈ keysOf (groupByPerson
          (ts.filter (fun t => t.person != "Myself"))) :=
        List.mem_map_of_mem Prod.fst hg
      obtain ⟨t, htF, htp⟩ := (hkeymem g.1).1 hkey
      have h2 := (List.mem_filter.1 htF).2
      rw [← htp]
      simpa using h2
    constructor
    · rw [mkBalance_totalOwed, mkBalance_name, hcontent g hg,
        filter_person_type ts g.1 hn TxType.expense]
    · rw [mkBalance_totalOwing, mkBalance_name, hcontent g hg,
        filter_person_type ts g.1 hn TxType.income]
  · exact hnames.nodup_iff.2 hkeys
  · intro n
    rw [hnames.mem_iff, hkeymem n]
    constructor
    · rintro ⟨t, htF, htp⟩
      have hmem := List.mem_filter.1 htF
      have hne : t.person ≠ "Myself" := by simpa using hmem.2
      exact ⟨htp ▸ hne, ⟨t, hmem.1, htp⟩⟩
    · rintro ⟨hn, t, htts, htp⟩
      refine ⟨t, List.mem_filter.2 ⟨htts, ?_⟩, htp⟩
      have : t.person ≠ "Myself" := htp.symm ▸ hn
      simpa using this
  · unfold personBalances
    refine List.Pairwise.imp ?_ (List.sorted_mergeSort ?_ ?_ _)
    · intro a b h
      simpa using h
    · intro a b c h1 h2
      simp only [decide_eq_true_eq] at h1 h2 ⊢
      omega
    · intro a b
      rcases le_total (b.totalOwed - b.totalOwing) (a.totalOwed - a.totalOwing) with h | h <;>
        simp [h]

/-- A 1000 expense attributed to John (John owes the user). -/
def johnTx1 : Transaction :=
  { id := "j1", occurredAt := dateMillis 2024 1 5 0, amount := 1000,
    type := TxType.expense, name := "lunch", person := "John", tag := "Food" }

/-- A 400 income from John (a repayment). -/
def johnTx2 : Transaction :=
  { id := "j2", occurredAt := dateMillis 2024 1 6 0, amount := 400,
    type := TxType.income, name := "repayment", person := "John", tag := "Settlement" }

/-- The expected balance row for John. -/
def johnBalance : PersonBalance :=
  { name := "John", totalOwed := 1000, totalOwing := 400,
    transactions := [johnTx2, johnTx1] }

unseal List.merge List.mergeSort in
/-- C1 witness: on the two John transactions the computed row is exactly
`johnBalance` (`totalOwed = 1000`, `totalOwing = 400`), and the theorem's
sum characterisation instantiates to it. -/
theorem claim_C1_witness :
    johnBalance ∈ personBalances [johnTx1, johnTx2]
    ∧ johnBalance.totalOwed = (([johnTx1, johnTx2].filter (fun t =>
        t.person == johnBalance.name && t.type == TxType.expense)).map
        Transaction.amount).sum
    ∧ johnBalance.totalOwing = (([johnTx1, johnTx2].filter (fun t =>
        t.person == johnBalance.name && t.type == TxType.income)).map
        Transaction.amount).sum
    ∧ johnBalance.totalOwed = 1000 ∧ johnBalance.totalOwing = 400 := by
  have hmem : johnBalance ∈ personBalances [johnTx1, johnTx2] := by decide
  have h := (claim_C1 [johnTx1, johnTx2]).2.1 johnBalance hmem
  exact ⟨hmem, h.1, h.2, by decide, by decide⟩

theorem sum_map_flatMap (gs : List (String × List Transaction)) :
    ((gs.flatMap Prod.snd).map signedAmount).sum
      = (gs.map (fun g => (g.2.map signedAmount).sum)).sum := by
  induction gs with
  | nil => rfl
  | cons g gs ih => simp [List.flatMap_cons, ih]

/-- C2: for every transaction list, the total net balance of the ledger
(`sum (totalOwed - totalOwing)` over `personBalances`) equals the summary
engine's `settlement = settlementExpenses - settlementIncome` computed by
`allTimeStats` from the full list. -/
theorem claim_C2 (ts : List Transaction) :
    ((personBalances ts).map (fun p => p.totalOwed - p.totalOwing)).sum
      = (allTimeStats ts).settlement := by
  rw [List.Perm.sum_eq ((personBalances_perm ts).map
    (fun p => p.totalOwed - p.totalOwing))]
  rw [List.map_map]
  have hpoint : ∀ g ∈ groupByPerson (ts.filter (fun t => t.person != "Myself")),
      ((fun p => p.totalOwed - p.totalOwing) ∘ mkBalance) g
        = (g.2.map signedAmount).sum := by
    intro g _
    simp only [Function.comp]
    rw [mkBalance_totalOwed, mkBalance_totalOwing, sum_filter_sub]
  rw [List.map_congr_left hpoint, ← sum_map_flatMap]
  have hjoin := (flatMap_foldl_perm (ts.filter (fun t => t.person != "Myself"))
    []).map signedAmount
  rw [groupByPerson]
  rw [List.Perm.sum_eq hjoin]
  simp only [List.flatMap_nil, List.nil_append]
  rw [← sum_filter_sub]
  unfold allTimeStats
  dsimp only
  rw [List.filter_filter, List.filter_filter]

/-! ## Claim C10: merge-mode restore semantics -/

theorem storeGet_nil {α : Type} (k : String) : storeGet ([] : List (String × α)) k = none :=
  rfl

theorem storeGet_cons {α : Type} (a : String) (b : α) (rest : List (String × α))
    (k : String) :
    storeGet ((a, b) :: rest) k = if a = k then some b else storeGet rest k := by
  by_cases h : a = k <;> simp [storeGet, h]

theorem storeGet_storePut {α : Type} (s : List (String × α)) (k k' : String) (v : α) :
    storeGet (storePut s k v) k' = if k' = k then some v else storeGet s k' := by
  induction s with
  | nil =>
    rw [storePut, storeGet_cons]
    by_cases h : k' = k
    · rw [if_pos h.symm, if_pos h]
    · rw [if_neg (fun hh => h hh.symm), if_neg h, storeGet_nil]
  | cons hd rest ih =>
    obtain ⟨k0, v0⟩ := hd
    by_cases h0 : k0 = k
    · rw [storePut, if_pos h0, storeGet_cons, storeGet_cons]
      by_cases h : k' = k
      · rw [if_pos h.symm, if_pos h]
      · rw [if_neg (fun hh => h hh.symm), if_neg h,
          if_neg (fun hh : k0 = k' => h (hh.symm.trans h0))]
    · rw [storePut, if_neg h0, storeGet_cons, storeGet_cons]
      by_cases h : k0 = k'
      · have hk : ¬ k' = k := fun hh => h0 (h.trans hh)
        rw [if_pos h, if_neg hk, if_pos h]
      · rw [if_neg h, if_neg h, ih]

/-- Folding unconditional `put`s over entries whose keys all differ from
`k` leaves the lookup at `k` unchanged. -/
theorem storeGet_foldl_put_not_mem {α : Type} (key : α → String) (l : List α)
    (k : String) (hk : ∀ v ∈ l, key v ≠ k) :
    ∀ s : List (String × α),
    storeGet (l.foldl (fun s v => storePut s (key v) v) s) k = storeGet s k := by
  induction l with
  | nil => intro s; rfl
  | cons v l ih =>
    intro s
    rw [List.foldl_cons, ih (fun u hu => hk u (List.mem_cons_of_mem v hu)),
      storeGet_storePut, if_neg (fun hh => hk v (List.mem_cons_self v l) hh.symm)]

/-- Folding unconditional `put`s of entries with pairwise-distinct keys
makes each entry retrievable: the backup's version wins. -/
theorem storeGet_foldl_put_nodup {α : Type} (key : α → String) (l : List α)
    (hnd : (l.map key).Nodup) (x : α) (hx : x ∈ l) :
    ∀ s : List (String × α),
    storeGet (l.foldl (fun s v => storePut s (key v) v) s) (key x) = some x := by
  induction l with
  | nil => simp at hx
  | cons v l ih =>
    intro s
    rw [List.map_cons, List.nodup_cons] at hnd
    rcases List.mem_cons.1 hx with rfl | hx'
    · rw [List.foldl_cons,
        storeGet_foldl_put_not_mem key l (key x)
          (fun u hu hh => hnd.1 (hh ▸ List.mem_map_of_mem key hu)),
        storeGet_storePut, if_pos rfl]
    · rw [List.foldl_cons]
      exact ih hnd.2 hx' _

/-- In merge mode, a transaction already present in the store survives the
restore loop unchanged. -/
theorem storeGet_foldl_merge_keep (l : List Transaction) (k : String)
    (v : Transaction) :
    ∀ s : List (String × Transaction), storeGet s k = some v →
    storeGet (l.foldl
      (fun s t => if (storeGet s t.id).isSome then s else storePut s t.id t) s) k
      = some v := by
  induction l with
  | nil => intro s h; exact h
  | cons t l ih =>
    intro s h
    rw [List.foldl_cons]
    by_cases hex : (storeGet s t.id).isSome
    · rw [if_pos hex]
      exact ih s h
    · rw [if_neg hex]
      apply ih
      rw [storeGet_storePut]
      have hne : ¬ k = t.id := by
        intro hh
        have hsome : storeGet s t.id = some v := hh ▸ h
        rw [hsome] at hex
        exact hex rfl
      rw [if_neg hne]
      exact h

/-- C10: in merge-mode restore only transactions are skipped on id
collision — every budget and investment goal of the backup is written
unconditionally (the backup's version overwrites a stored one with the
same id), while a backup transaction whose id already exists leaves the
stored transaction in place. -/
theorem claim_C10 (data : BackupData) (st : StoreState)
    (hb : (data.budgets.map Budget.id).Nodup)
    (hg : (data.investmentGoals.map InvestmentGoal.id).Nodup) :
    (∀ b ∈ data.budgets,
        storeGet (restoreFromBackup data RestoreMode.merge st).budgets b.id = some b)
    ∧ (∀ g ∈ data.investmentGoals,
        storeGet (restoreFromBackup data RestoreMode.merge st).investmentGoals g.id
          = some g)
    ∧ (∀ t ∈ data.transactions, ∀ t0 : Transaction,
        storeGet st.transactions t.id = some t0 →
        storeGet (restoreFromBackup data RestoreMode.merge st).transactions t.id
          = some t0) := by
  unfold restoreFromBackup
  dsimp only
  refine ⟨?_, ?_, ?_⟩
  · intro b hbmem
    exact storeGet_foldl_put_nodup Budget.id data.budgets hb b hbmem _
  · intro g hgmem
    exact storeGet_foldl_put_nodup InvestmentGoal.id data.investmentGoals hg g hgmem _
  · intro t htmem t0 h0
    exact storeGet_foldl_merge_keep data.transactions t.id t0 _ h0

/-- The budget as stored before the restore. -/
def storedBudget : Budget :=
  { id := "b1", name := "Old food budget", amount := 300, tags := ["Food"],
    category := BudgetCategory.needs, type := BudgetType.monthly,
    startDate := none, endDate := none, month := none,
    createdAt := "2023-01-01", color := none }

/-- The same-id budget carried by the backup. -/
def backupBudget : Budget :=
  { storedBudget with
      name := "New food budget"
      amount := 500
      createdAt := "2024-01-01" }

/-- The transaction as stored before the restore. -/
def storedTx : Transaction :=
  { id := "t1", occurredAt := 0, amount := 50, type := TxType.expense,
    name := "old groceries", person := "Myself", tag := "Food" }

/-- The same-id transaction carried by the backup. -/
def backupTx : Transaction :=
  { storedTx with
      amount := 75
      name := "new groceries" }

/-- The store before the restore. -/
def st0 : StoreState :=
  { transactions := [("t1", storedTx)], settings := [],
    budgets := [("b1", storedBudget)], investmentGoals := [] }

/-- The backup being merged. -/
def backup0 : BackupData :=
  { version := 2, exportedAt := "2024-06-01", transactions := [backupTx],
    settings := { tags := ["Food"], names := ["John"] },
    budgets := [backupBudget], investmentGoals := [] }

/-- C10 witness: merging `backup0` into `st0` overwrites the stored
budget `b1` with the backup's version but keeps the stored transaction
`t1`, skipping the backup's colliding copy. -/
theorem claim_C10_witness :
    storeGet (restoreFromBackup backup0 RestoreMode.merge st0).budgets backupBudget.id
      = some backupBudget
    ∧ storeGet (restoreFromBackup backup0 RestoreMode.merge st0).transactions backupTx.id
      = some storedTx :=
  ⟨(claim_C10 backup0 st0 (by decide) (by decide)).1 backupBudget (by decide),
   (claim_C10 backup0 st0 (by decide) (by decide)).2.2 backupTx (by decide) storedTx
     (by decide)⟩
